import Mathlib

/-!
Shallow embedding of the dataset indexing and triplet-mining layer of the
deepprojection repository (src/deepprojection/dataset.py), together with
theorems settling the behavioural claims about it.

Conventions of the embedding:
* Python exceptions become an explicit error type `PyErr`; a method that can
  raise returns `Except PyErr _`.
* Python `list[i]` indexing (which accepts negative indices by wrapping) is
  embedded as `pyGet`.
* Python `dict` objects are embedded as insertion-ordered association lists;
  `upsert` mirrors `d[k] = v` (replace in place when the key is present,
  append otherwise) and `dictLookup` mirrors `d[k]` lookup.
* The process-wide generator of the Python random module is embedded as an
  explicit `Nat` state threaded through the calls; `sampleOne` models
  `random.sample(population, 1)[0]` as a deterministic member pick that
  advances the state, failing on an empty population exactly as the library
  does.  The claims proved below depend only on the facts that the pick is a
  deterministic function of the state and returns a member of the population.
* The external psana facility is embedded as a record `PsanaEnv` of pure
  functions supplying, per data source, the timestamp list, the event of a
  timestamp, and the detector image of an event.
-/

/-- Python exception classes that the embedded code can raise, with the
message distinguishing the two distinct IndexError sites of the source. -/
inductive PyErr where
  | indexError (msg : String)
  | keyError
  | valueError (msg : String)
  deriving DecidableEq, Repr

/-- Message of the explicit range check raise in SPIImgDataset.__getitem__. -/
def sizeMsg : String := "Index is larger than the size of samples."

/-- Message of a Python list index failure. -/
def listMsg : String := "list index out of range"

/-- Message of random.sample on an empty population. -/
def sampleMsg : String := "Sample larger than population or is negative"

/-- Bool-valued success test on an Except value. -/
def exOk {ε α : Type} : Except ε α → Bool
  | .ok _ => true
  | .error _ => false

/-- Python list indexing semantics: a negative index wraps once from the end;
anything still out of range is an IndexError. -/
def pyGet {α : Type} (l : List α) (i : Int) : Except PyErr α :=
  let j : Int := if i < 0 then i + l.length else i
  if h : 0 ≤ j ∧ j < l.length then
    .ok (l.get ⟨j.toNat, by omega⟩)
  else
    .error (.indexError listMsg)

/-- Lookup in an insertion-ordered association list, as Python dict lookup. -/
def dictLookup {κ α : Type} [DecidableEq κ] (k : κ) : List (κ × α) → Option α
  | [] => none
  | (k', v) :: rest => if k' = k then some v else dictLookup k rest

/-- Python dict assignment d[k] = v: replace in place when the key exists,
append at the end otherwise (dicts preserve insertion order). -/
def upsert {κ α : Type} [DecidableEq κ] (k : κ) (v : α) : List (κ × α) → List (κ × α)
  | [] => [(k, v)]
  | (k', v') :: rest => if k' = k then (k, v) :: rest else (k', v') :: upsert k v rest

/-- Decimal value of a digit string. -/
def digitsToNat (cs : List Char) : Nat :=
  cs.foldl (fun n c => n * 10 + (c.toNat - 48)) 0

/-- Python int() on a string of an optionally signed decimal numeral
(reading garbage as digits where the source would raise, which no claim
exercises). -/
def strToInt (s : String) : Int :=
  match s.data with
  | '-' :: rest => -(digitsToNat rest : Int)
  | cs => (digitsToNat cs : Int)

/-- Splitting a character list at every separator occurrence. -/
def splitChar (sep : Char) : List Char → List (List Char)
  | [] => [[]]
  | c :: cs =>
    match splitChar sep cs with
    | [] => [[]]
    | w :: ws => if c = sep then [] :: w :: ws else (c :: w) :: ws

/-- Python str.split with a one character separator. -/
def pySplit (s : String) (sep : Char) : List String :=
  (splitChar sep s.data).map String.mk

/-- Zero padding of a run number to four digits, as the {:04d} format. -/
def pad4 (n : Nat) : String :=
  let s := toString n
  String.mk (List.replicate (4 - s.length) '0') ++ s

/-- One linear congruential step, the deterministic state transition of the
embedded random source. -/
def lcgNext (g : Nat) : Nat := (1103515245 * g + 12345) % 2147483648

/-- Embedding of random.sample(population, 1)[0] on the explicit generator
state: advance the state and pick the member the new state selects; an empty
population is a ValueError exactly as in the library. -/
def sampleOne {α : Type} (l : List α) (g : Nat) : Except PyErr (α × Nat) :=
  if h : 0 < l.length then
    .ok (l.get ⟨lcgNext g % l.length, Nat.mod_lt _ h⟩, lcgNext g)
  else
    .error (.valueError sampleMsg)

/-- The external psana facility as a pure capability record: per data source
id the ordered timestamp list, and the event resolution and detector image
functions.  Images are 2-D integer arrays. -/
structure PsanaEnv where
  timesOf : String → List Nat
  eventOf : String → Nat → Nat
  imageOf : String → Nat → List (List Int)

/-- Embedding of class PsanaImg: the state captured at construction. -/
structure PsanaImg where
  datasource_id : String
  timestamps : List Nat
  detector : String
  deriving Repr

/-- PsanaImg.__init__: build the data source id, open the source and
materialize the timestamp list, set up the detector. -/
def PsanaImg.init (env : PsanaEnv) (exp run mode detector_name : String) : PsanaImg :=
  let datasource_id := "exp=" ++ exp ++ ":run=" ++ run ++ ":" ++ mode
  { datasource_id := datasource_id
    timestamps := env.timesOf datasource_id
    detector := detector_name }

/-- PsanaImg.get: fetch the timestamp at position event_num (Python list
indexing), resolve the event, and fetch the detector image. -/
def PsanaImg.get (env : PsanaEnv) (p : PsanaImg) (event_num : Int) :
    Except PyErr (List (List Int)) := do
  let timestamp ← pyGet p.timestamps event_num
  let event := env.eventOf p.datasource_id timestamp
  let img := env.imageOf p.detector event
  return img

/-- ImgLabelFileParser._locate_labelfile: the label file path convention. -/
def locateLabelfile (username exp run drc_root : String) : String :=
  let drc_run := "r" ++ pad4 (strToInt run).toNat
  let drc_psocake := exp ++ "/" ++ username ++ "/psocake/" ++ drc_run
  let basename := exp ++ "_" ++ pad4 (strToInt run).toNat
  let fl_json := basename ++ ".label.json"
  drc_root ++ "/" ++ drc_psocake ++ "/" ++ fl_json

/-- Numeric ordering on string-keyed label entries, the key function
lambda x : int(x[0]) of the source sort. -/
def keyLe (a b : String × Int) : Prop := strToInt a.1 ≤ strToInt b.1

instance : DecidableRel keyLe := fun a b =>
  inferInstanceAs (Decidable (strToInt a.1 ≤ strToInt b.1))

instance : IsTotal (String × Int) keyLe :=
  ⟨fun a b => Int.le_total (strToInt a.1) (strToInt b.1)⟩

instance : IsTrans (String × Int) keyLe := ⟨fun _ _ _ => Int.le_trans⟩

/-- ImgLabelFileParser._load_imglabel: the file system is a partial map from
paths to parsed JSON objects (insertion-ordered string-keyed entries).  If
the file exists its entries are stably sorted ascending by the numeric value
of the key; otherwise a diagnostic is printed and the index stays empty. -/
def loadImglabel (fs : String → Option (List (String × Int)))
    (username exp run drc_root : String) : List (String × Int) :=
  match fs (locateLabelfile username exp run drc_root) with
  | some imglabel_dict => List.insertionSort keyLe imglabel_dict
  | none => []

/-- One row of the run manifest csv (header already skipped): the five
columns exp, run, mode, detector_name, drc_root. -/
structure RunDescriptor where
  exp : String
  run : String
  mode : String
  detector_name : String
  drc_root : String
  deriving Repr, DecidableEq

/-- Minimal basename of a dataset, the f-string exp.run. -/
def RunDescriptor.basename (rd : RunDescriptor) : String := rd.exp ++ "." ++ rd.run

/-- One entry of the flat sample list: (exp, run, event_num, label). -/
abbrev Sample := String × String × Int × Int

/-- Label projection of a sample. -/
def Sample.label (s : Sample) : Int := s.2.2.2

/-- Embedding of class SPIImg: the state built by __init__. -/
structure SPIImg where
  dataset_dict : List (String × List (String × Int))
  imglabel_list : List Sample
  psana_imgreader_dict : List (String × PsanaImg)

/-- The csv reading loop of SPIImg.__init__: per manifest row, construct the
image accessor and parse the label file, keyed by the basename. -/
def buildDicts (env : PsanaEnv) (fs : String → Option (List (String × Int)))
    (username : String) (manifest : List RunDescriptor) :
    List (String × PsanaImg) × List (String × List (String × Int)) :=
  manifest.foldl
    (fun st rd =>
      (upsert rd.basename (PsanaImg.init env rd.exp rd.run rd.mode rd.detector_name) st.1,
       upsert rd.basename (loadImglabel fs username rd.exp rd.run rd.drc_root) st.2))
    ([], [])

/-- The enumeration loop of SPIImg.__init__: iterate the dataset dict in
insertion order, split the basename back into exp and run, and append one
sample per (event_num, label) entry. -/
def buildImglabelList (dd : List (String × List (String × Int))) : List Sample :=
  dd.foldl
    (fun acc entry =>
      let parts := pySplit entry.1 '.'
      let exp := parts.headD ""
      let run := (parts.drop 1).headD ""
      acc ++ entry.2.map (fun el => (exp, run, strToInt el.1, el.2)))
    []

/-- SPIImg.__init__ over a parsed manifest. -/
def SPIImg.init (env : PsanaEnv) (fs : String → Option (List (String × Int)))
    (username : String) (manifest : List RunDescriptor) : SPIImg :=
  let (readers, dd) := buildDicts env fs username manifest
  { dataset_dict := dd
    imglabel_list := buildImglabelList dd
    psana_imgreader_dict := readers }

/-- SPIImg.__len__. -/
def SPIImg.len (ds : SPIImg) : Nat := ds.imglabel_list.length

/-- SPIImg.__getitem__ in state-passing form: every exit returns the object
state alongside the result, making the absence of mutation explicit. -/
def SPIImg.getitemS (env : PsanaEnv) (ds : SPIImg) (idx : Int) :
    Except PyErr (List Int × Int) × SPIImg :=
  match pyGet ds.imglabel_list idx with
  | .error e => (.error e, ds)
  | .ok (exp, run, event_num, label) =>
    let basename := exp ++ "." ++ run
    match dictLookup basename ds.psana_imgreader_dict with
    | none => (.error .keyError, ds)
    | some reader =>
      match PsanaImg.get env reader event_num with
      | .error e => (.error e, ds)
      | .ok img => (.ok (img.flatten, label), ds)

/-- SPIImg.__getitem__, the returned value. -/
def SPIImg.getitem (env : PsanaEnv) (ds : SPIImg) (idx : Int) :
    Except PyErr (List Int × Int) :=
  (SPIImg.getitemS env ds idx).1

/-- One step of the label bucket construction in SPIImgDataset.__init__: a
fresh label opens a bucket at the end of the dict, an existing label has the
sequence index appended to its bucket in place. -/
def bucketAdd (lab : Int) (i : Nat) : List (Int × List Nat) → List (Int × List Nat)
  | [] => [(lab, [i])]
  | (l, is) :: rest =>
    if l = lab then (l, is ++ [i]) :: rest else (l, is) :: bucketAdd lab i rest

/-- The label bucket loop of SPIImgDataset.__init__, enumerating the flat
sample list. -/
def buildLabelSeqi (l : List Sample) : List (Int × List Nat) :=
  l.enum.foldl (fun d p => bucketAdd p.2.label p.1 d) []

/-- The negative bucket loop of SPIImgDataset.__getitem__: concatenate every
bucket whose label differs from the anchor label, in dict order. -/
def negPool (label_anchor : Int) (d : List (Int × List Nat)) : List Nat :=
  d.foldl (fun acc p => if p.1 = label_anchor then acc else acc ++ p.2) []

/-- Embedding of class SPIImgDataset: the state built by its __init__. -/
structure SPIImgDataset extends SPIImg where
  num_stockimgs : Nat
  size_sample : Nat
  seed : Nat
  label_seqi_dict : List (Int × List Nat)

/-- SPIImgDataset.__init__. -/
def SPIImgDataset.init (env : PsanaEnv) (fs : String → Option (List (String × Int)))
    (username : String) (manifest : List RunDescriptor)
    (size_sample seed : Nat) : SPIImgDataset :=
  let base := SPIImg.init env fs username manifest
  { toSPIImg := base
    num_stockimgs := base.imglabel_list.length
    size_sample := size_sample
    seed := seed
    label_seqi_dict := buildLabelSeqi base.imglabel_list }

/-- SPIImgDataset.__len__: the virtual sample count. -/
def SPIImgDataset.len (ds : SPIImgDataset) : Nat := ds.size_sample

/-- A produced triplet together with the drawn global indices:
((id_anchor, img_anchor), (id_pos, img_pos), (id_neg, img_neg), label_anchor). -/
abbrev TripletDetail := (Nat × List Int) × (Nat × List Int) × (Nat × List Int) × Int

/-- SPIImgDataset.__getitem__ with the explicit generator state threaded in
and out, keeping the drawn global indices next to each image.  The body is a
line-by-line embedding: the range check, the reseed, the anchor draw from
range(num_stockimgs), the anchor read, the positive bucket lookup, the
negative pool construction, the positive and negative draws, and the two
remaining reads. -/
def SPIImgDataset.getitemDetail (env : PsanaEnv) (ds : SPIImgDataset)
    (idx : Int) (g : Nat) : Except PyErr TripletDetail × Nat :=
  if (ds.size_sample : Int) ≤ idx then (.error (.indexError sizeMsg), g)
  else
    let g0 := ds.seed
    match sampleOne (List.range ds.num_stockimgs) g0 with
    | .error e => (.error e, g0)
    | .ok (id_anchor, g1) =>
      match SPIImg.getitem env ds.toSPIImg (id_anchor : Int) with
      | .error e => (.error e, g1)
      | .ok (img_anchor, label_anchor) =>
        match dictLookup label_anchor ds.label_seqi_dict with
        | none => (.error .keyError, g1)
        | some pos_bucket =>
          let neg_bucket := negPool label_anchor ds.label_seqi_dict
          match sampleOne pos_bucket g1 with
          | .error e => (.error e, g1)
          | .ok (id_pos, g2) =>
            match sampleOne neg_bucket g2 with
            | .error e => (.error e, g2)
            | .ok (id_neg, g3) =>
              match SPIImg.getitem env ds.toSPIImg (id_pos : Int) with
              | .error e => (.error e, g3)
              | .ok (img_pos, _) =>
                match SPIImg.getitem env ds.toSPIImg (id_neg : Int) with
                | .error e => (.error e, g3)
                | .ok (img_neg, _) =>
                  (.ok ((id_anchor, img_anchor), (id_pos, img_pos),
                        (id_neg, img_neg), label_anchor), g3)

/-- SPIImgDataset.__getitem__ as the caller sees it: the four returned
values (img_anchor, img_pos, img_neg, label_anchor). -/
def SPIImgDataset.getitem (env : PsanaEnv) (ds : SPIImgDataset)
    (idx : Int) (g : Nat) :
    Except PyErr (List Int × List Int × List Int × Int) × Nat :=
  let r := SPIImgDataset.getitemDetail env ds idx g
  (r.1.map (fun t => (t.1.2, t.2.1.2, t.2.2.1.2, t.2.2.2)), r.2)

/-! Concrete instances: the two run manifest of the end-to-end scenario,
with a small psana environment of six timestamps per source. -/

/-- A psana environment with six timestamps for every data source; the image
of an event is the one-cell array holding the event value. -/
def exEnv : PsanaEnv :=
  { timesOf := fun _ => [100, 101, 102, 103, 104, 105]
    eventOf := fun _ t => t
    imageOf := fun _ ev => [[(ev : Int)]] }

/-- The two manifest rows: run A and run B. -/
def exManifest : List RunDescriptor :=
  [ { exp := "A", run := "1", mode := "idx", detector_name := "d", drc_root := "root" },
    { exp := "B", run := "2", mode := "idx", detector_name := "d", drc_root := "root" } ]

/-- The file system: run A labels events 0, 2, 5 (keys deliberately out of
numeric order in the file) and run B labels event 1. -/
def exFs : String → Option (List (String × Int)) := fun p =>
  if p = "root/A/u/psocake/r0001/A_0001.label.json" then
    some [("2", 1), ("0", 1), ("5", 0)]
  else if p = "root/B/u/psocake/r0002/B_0002.label.json" then
    some [("1", 0)]
  else none

/-- The catalog of the scenario. -/
def exDs : SPIImg := SPIImg.init exEnv exFs "u" exManifest

/-- The triplet dataset of the scenario: virtual size 2, seed 0. -/
def exDsT : SPIImgDataset := SPIImgDataset.init exEnv exFs "u" exManifest 2 0

/-- An accessor over a two element timestamp list, for the range claims. -/
def exEnv2 : PsanaEnv :=
  { timesOf := fun _ => [100, 101]
    eventOf := fun _ t => t
    imageOf := fun _ ev => [[(ev : Int)]] }

/-- The accessor constructed from exEnv2. -/
def exPsana2 : PsanaImg := PsanaImg.init exEnv2 "A" "1" "idx" "d"

/-! Supporting lemmas. -/

theorem exOk_iff {ε α : Type} (x : Except ε α) :
    exOk x = true ↔ ∃ v, x = .ok v := by
  cases x <;> simp [exOk]

theorem pyGet_natCast {α : Type} (l : List α) (n : Nat) :
    pyGet l (n : Int) =
      if h : n < l.length then .ok (l.get ⟨n, h⟩) else .error (.indexError listMsg) := by
  have h0 : ¬ ((n : Int) < 0) := by omega
  simp only [pyGet, h0, if_false]
  by_cases h : n < l.length
  · rw [dif_pos (by omega), dif_pos h]
    simp
  · rw [dif_neg (by omega), dif_neg h]

theorem pyGet_ok_get? {α : Type} {l : List α} {n : Nat} {x : α}
    (h : pyGet l (n : Int) = .ok x) : l.get? n = some x := by
  rw [pyGet_natCast] at h
  split at h
  · rename_i hlt
    cases h
    exact List.get?_eq_get hlt
  · cases h

theorem sampleOne_pos {α : Type} (l : List α) (g : Nat) (h : 0 < l.length) :
    sampleOne l g = .ok (l.get ⟨lcgNext g % l.length, Nat.mod_lt _ h⟩, lcgNext g) := by
  unfold sampleOne
  rw [dif_pos h]

theorem sampleOne_nil {α : Type} (g : Nat) :
    sampleOne ([] : List α) g = .error (.valueError sampleMsg) := rfl

theorem sampleOne_mem {α : Type} {l : List α} {g g' : Nat} {x : α}
    (h : sampleOne l g = .ok (x, g')) : x ∈ l := by
  unfold sampleOne at h
  split at h
  · cases h
    exact List.get_mem _ _ _
  · cases h

theorem dictLookup_mem {κ α : Type} [DecidableEq κ] {k : κ} {v : α}
    {d : List (κ × α)} (h : dictLookup k d = some v) : (k, v) ∈ d := by
  induction d with
  | nil => cases h
  | cons p rest ih =>
    unfold dictLookup at h
    by_cases hk : p.1 = k
    · rw [if_pos hk] at h
      cases h
      have hp : p = (k, p.2) := by rw [← hk]
      rw [← hp]
      exact List.mem_cons_self _ _
    · rw [if_neg hk] at h
      exact List.mem_cons_of_mem _ (ih h)

theorem upsert_fresh {κ α : Type} [DecidableEq κ] {k : κ} (v : α)
    {d : List (κ × α)} (h : k ∉ d.map Prod.fst) : upsert k v d = d ++ [(k, v)] := by
  induction d with
  | nil => rfl
  | cons p rest ih =>
    simp only [List.map_cons, List.mem_cons] at h
    push_neg at h
    unfold upsert
    rw [if_neg (fun he => h.1 he.symm), ih h.2]
    rfl

/-- The manifest fold of SPIImg.__init__ with distinct basenames appends one
entry per run to each dict, in manifest order. -/
theorem buildDicts_go (env : PsanaEnv) (fs : String → Option (List (String × Int)))
    (u : String) (manifest : List RunDescriptor) :
    ∀ (r0 : List (String × PsanaImg)) (d0 : List (String × List (String × Int))),
      (manifest.map RunDescriptor.basename).Nodup →
      (∀ rd ∈ manifest, rd.basename ∉ r0.map Prod.fst) →
      (∀ rd ∈ manifest, rd.basename ∉ d0.map Prod.fst) →
      manifest.foldl
        (fun st rd =>
          (upsert rd.basename (PsanaImg.init env rd.exp rd.run rd.mode rd.detector_name) st.1,
           upsert rd.basename (loadImglabel fs u rd.exp rd.run rd.drc_root) st.2))
        (r0, d0) =
      (r0 ++ manifest.map
          (fun rd => (rd.basename, PsanaImg.init env rd.exp rd.run rd.mode rd.detector_name)),
       d0 ++ manifest.map
          (fun rd => (rd.basename, loadImglabel fs u rd.exp rd.run rd.drc_root))) := by
  induction manifest with
  | nil => intro r0 d0 _ _ _; simp
  | cons rd rest ih =>
    intro r0 d0 hnodup hr hd
    simp only [List.map_cons, List.nodup_cons] at hnodup
    rw [List.foldl_cons]
    rw [upsert_fresh _ (hr rd (List.mem_cons_self _ _)),
        upsert_fresh _ (hd rd (List.mem_cons_self _ _))]
    have hfresh : ∀ rd' ∈ rest, rd'.basename ≠ rd.basename := by
      intro rd' hmem he
      exact hnodup.1 (he ▸ List.mem_map_of_mem RunDescriptor.basename hmem)
    rw [ih (r0 ++ [(rd.basename, _)]) (d0 ++ [(rd.basename, _)]) hnodup.2
        (by
          intro rd' hmem
          simp only [List.map_append, List.mem_append, List.map_cons, List.map_nil,
            List.mem_singleton]
          push_neg
          exact ⟨hr rd' (List.mem_cons_of_mem _ hmem), hfresh rd' hmem⟩)
        (by
          intro rd' hmem
          simp only [List.map_append, List.mem_append, List.map_cons, List.map_nil,
            List.mem_singleton]
          push_neg
          exact ⟨hd rd' (List.mem_cons_of_mem _ hmem), hfresh rd' hmem⟩)]
    simp

/-- buildDicts over a manifest with distinct basenames is one entry per run,
in manifest order. -/
theorem buildDicts_eq (env : PsanaEnv) (fs : String → Option (List (String × Int)))
    (u : String) (manifest : List RunDescriptor)
    (hnodup : (manifest.map RunDescriptor.basename).Nodup) :
    buildDicts env fs u manifest =
      (manifest.map
          (fun rd => (rd.basename, PsanaImg.init env rd.exp rd.run rd.mode rd.detector_name)),
       manifest.map
          (fun rd => (rd.basename, loadImglabel fs u rd.exp rd.run rd.drc_root))) := by
  unfold buildDicts
  rw [buildDicts_go env fs u manifest [] [] hnodup (by simp) (by simp)]
  simp

/-- Folding list concatenation is flattening. -/
theorem foldl_append_eq {α β : Type} (f : β → List α) (dd : List β) :
    ∀ acc : List α,
      dd.foldl (fun a e => a ++ f e) acc = acc ++ (dd.map f).flatten := by
  induction dd with
  | nil => intro acc; simp
  | cons e rest ih =>
    intro acc
    rw [List.foldl_cons, ih (acc ++ f e)]
    simp

/-- The enumeration loop of SPIImg.__init__ as a flatten. -/
theorem buildImglabelList_eq (dd : List (String × List (String × Int))) :
    buildImglabelList dd =
      (dd.map (fun e =>
        e.2.map (fun el =>
          ((pySplit e.1 '.').headD "", ((pySplit e.1 '.').drop 1).headD "",
           strToInt el.1, el.2)))).flatten := by
  unfold buildImglabelList
  rw [foldl_append_eq (fun e =>
    e.2.map (fun el =>
      ((pySplit e.1 '.').headD "", ((pySplit e.1 '.').drop 1).headD "",
       strToInt el.1, el.2))) dd []]
  rfl

/-- The flat sample list projected to (event_num, label) pairs is the
concatenation of the per run numeric entries, in dict order. -/
theorem buildImglabelList_pairs (dd : List (String × List (String × Int))) :
    (buildImglabelList dd).map (fun s => s.2.2) =
      (dd.map (fun e => e.2.map (fun el => (strToInt el.1, el.2)))).flatten := by
  rw [buildImglabelList_eq]
  rw [List.map_flatten, List.map_map]
  have hfg : ((List.map fun (s : Sample) => s.2.2) ∘ fun (e : String × List (String × Int)) =>
      e.2.map (fun el =>
        ((pySplit e.1 '.').headD "", ((pySplit e.1 '.').drop 1).headD "",
         strToInt el.1, el.2))) =
      fun e => e.2.map (fun el => (strToInt el.1, el.2)) := by
    funext e
    simp [Function.comp]
  rw [hfg]

/-- Length of the flat sample list is the sum of the per run entry counts. -/
theorem buildImglabelList_length (dd : List (String × List (String × Int))) :
    (buildImglabelList dd).length = (dd.map (fun e => e.2.length)).sum := by
  have h := congrArg List.length (buildImglabelList_pairs dd)
  rw [List.length_map] at h
  rw [h, List.length_flatten, List.map_map]
  have hfg : (List.length ∘ fun (e : String × List (String × Int)) =>
      e.2.map (fun el => (strToInt el.1, el.2))) = fun e => e.2.length := by
    funext e
    simp [Function.comp]
  rw [hfg]

/-- The dicts held by a constructed catalog, one entry per run. -/
theorem SPIImg_init_dicts (env : PsanaEnv) (fs : String → Option (List (String × Int)))
    (u : String) (manifest : List RunDescriptor)
    (hnodup : (manifest.map RunDescriptor.basename).Nodup) :
    (SPIImg.init env fs u manifest).psana_imgreader_dict =
      manifest.map
        (fun rd => (rd.basename, PsanaImg.init env rd.exp rd.run rd.mode rd.detector_name))
    ∧ (SPIImg.init env fs u manifest).dataset_dict =
      manifest.map
        (fun rd => (rd.basename, loadImglabel fs u rd.exp rd.run rd.drc_root)) := by
  unfold SPIImg.init
  rw [buildDicts_eq env fs u manifest hnodup]
  exact ⟨rfl, rfl⟩

/-- Catalog length equals the total count of label entries over the runs. -/
theorem SPIImg_len_eq (env : PsanaEnv) (fs : String → Option (List (String × Int)))
    (u : String) (manifest : List RunDescriptor)
    (hnodup : (manifest.map RunDescriptor.basename).Nodup) :
    (SPIImg.init env fs u manifest).len =
      (manifest.map (fun rd => (loadImglabel fs u rd.exp rd.run rd.drc_root).length)).sum := by
  have hd := (SPIImg_init_dicts env fs u manifest hnodup).2
  have hl : (SPIImg.init env fs u manifest).imglabel_list =
      buildImglabelList (SPIImg.init env fs u manifest).dataset_dict := by
    unfold SPIImg.init
    rfl
  unfold SPIImg.len
  rw [hl, hd, buildImglabelList_length, List.map_map]
  congr 1

/-- When the label file exists, the parsed index is a permutation of the file
entries sorted ascending by the numeric value of the key. -/
theorem loadImglabel_spec (fs : String → Option (List (String × Int)))
    (u exp run root : String) (d : List (String × Int))
    (h : fs (locateLabelfile u exp run root) = some d) :
    (loadImglabel fs u exp run root).Pairwise
      (fun a b => strToInt a.1 ≤ strToInt b.1)
    ∧ (loadImglabel fs u exp run root).Perm d := by
  unfold loadImglabel
  rw [h]
  exact ⟨List.sorted_insertionSort keyLe d, List.perm_insertionSort keyLe d⟩

/-- When the label file is absent, the parsed index is empty. -/
theorem loadImglabel_absent (fs : String → Option (List (String × Int)))
    (u exp run root : String)
    (h : fs (locateLabelfile u exp run root) = none) :
    loadImglabel fs u exp run root = [] := by
  unfold loadImglabel
  rw [h]

/-- Adding one index to the bucket dict adds exactly that index to the
multiset of stored indices. -/
theorem bucketAdd_flatten_perm (lab : Int) (i : Nat) (d : List (Int × List Nat)) :
    ((bucketAdd lab i d).map Prod.snd).flatten.Perm
      (i :: (d.map Prod.snd).flatten) := by
  induction d with
  | nil => simp [bucketAdd]
  | cons p rest ih =>
    unfold bucketAdd
    by_cases hl : p.1 = lab
    · rw [if_pos hl]
      simp only [List.map_cons, List.flatten_cons, List.append_assoc]
      exact List.perm_middle
    · rw [if_neg hl]
      simp only [List.map_cons, List.flatten_cons]
      exact (ih.append_left p.2).trans List.perm_middle

/-- Membership in a bucket after bucketAdd comes from the old dict or is the
freshly added pair. -/
theorem bucketAdd_mem_inv {lab : Int} {i : Nat} {d : List (Int × List Nat)}
    {lab' : Int} {is' : List Nat} (hmem : (lab', is') ∈ bucketAdd lab i d) :
    ∀ j ∈ is', (∃ is, (lab', is) ∈ d ∧ j ∈ is) ∨ (lab' = lab ∧ j = i) := by
  induction d with
  | nil =>
    simp only [bucketAdd, List.mem_singleton, Prod.mk.injEq] at hmem
    intro j hj
    rw [hmem.2] at hj
    simp only [List.mem_singleton] at hj
    exact Or.inr ⟨hmem.1, hj⟩
  | cons p rest ih =>
    unfold bucketAdd at hmem
    by_cases hl : p.1 = lab
    · rw [if_pos hl] at hmem
      rcases List.mem_cons.mp hmem with hhead | htail
      · rw [Prod.mk.injEq] at hhead
        obtain ⟨h1, h2⟩ := hhead
        intro j hj
        rw [h2] at hj
        rcases List.mem_append.mp hj with hin | hone
        · refine Or.inl ⟨p.2, ?_, hin⟩
          rw [h1]
          exact List.mem_cons_self _ _
        · simp only [List.mem_singleton] at hone
          exact Or.inr ⟨h1.trans hl, hone⟩
      · intro j hj
        exact Or.inl ⟨is', List.mem_cons_of_mem _ htail, hj⟩
    · rw [if_neg hl] at hmem
      rcases List.mem_cons.mp hmem with hhead | htail
      · intro j hj
        exact Or.inl ⟨is', hhead ▸ List.mem_cons_self _ _, hj⟩
      · intro j hj
        rcases ih htail j hj with ⟨is, hd, hjs⟩ | hnew
        · exact Or.inl ⟨is, List.mem_cons_of_mem _ hd, hjs⟩
        · exact Or.inr hnew

/-- Soundness of the bucket fold: every stored (label, index) pair satisfies
any property satisfied by the initial dict and by the enumerated pairs. -/
theorem bucket_fold_sound (Q : Int → Nat → Prop) (ps : List (Nat × Sample)) :
    ∀ d : List (Int × List Nat),
      (∀ lab is, (lab, is) ∈ d → ∀ j ∈ is, Q lab j) →
      (∀ p ∈ ps, Q p.2.label p.1) →
      ∀ lab is,
        (lab, is) ∈ ps.foldl (fun d p => bucketAdd p.2.label p.1 d) d →
        ∀ j ∈ is, Q lab j := by
  induction ps with
  | nil =>
    intro d hd _ lab is hmem j hj
    exact hd lab is hmem j hj
  | cons p rest ih =>
    intro d hd hp lab is hmem j hj
    rw [List.foldl_cons] at hmem
    refine ih (bucketAdd p.2.label p.1 d) ?_ (fun q hq => hp q (List.mem_cons_of_mem _ hq))
      lab is hmem j hj
    intro lab' is' hmem' j' hj'
    rcases bucketAdd_mem_inv hmem' j' hj' with ⟨is0, hd0, hj0⟩ | ⟨he1, he2⟩
    · exact hd lab' is0 hd0 j' hj0
    · rw [he1, he2]
      exact hp p (List.mem_cons_self _ _)

/-- Adding an index for one label keeps every index stored under any label. -/
theorem mem_lookup_bucketAdd {j : Nat} {lab lab2 : Int} {i : Nat}
    {d : List (Int × List Nat)} (h : j ∈ (dictLookup lab d).getD []) :
    j ∈ (dictLookup lab (bucketAdd lab2 i d)).getD [] := by
  induction d with
  | nil => simp [dictLookup] at h
  | cons p rest ih =>
    unfold bucketAdd
    by_cases h2 : p.1 = lab2
    · rw [if_pos h2]
      unfold dictLookup at h ⊢
      by_cases hl : p.1 = lab
      · rw [if_pos hl] at h ⊢
        simp only [Option.getD_some] at h ⊢
        exact List.mem_append_left _ h
      · rw [if_neg hl] at h ⊢
        exact h
    · rw [if_neg h2]
      unfold dictLookup at h ⊢
      by_cases hl : p.1 = lab
      · rw [if_pos hl] at h ⊢
        exact h
      · rw [if_neg hl] at h ⊢
        exact ih h

/-- bucketAdd stores the added index under the added label. -/
theorem mem_lookup_bucketAdd_self (lab : Int) (i : Nat) (d : List (Int × List Nat)) :
    i ∈ (dictLookup lab (bucketAdd lab i d)).getD [] := by
  induction d with
  | nil => simp [bucketAdd, dictLookup]
  | cons p rest ih =>
    unfold bucketAdd
    by_cases hl : p.1 = lab
    · rw [if_pos hl]
      unfold dictLookup
      rw [if_pos hl]
      simp
    · rw [if_neg hl]
      unfold dictLookup
      rw [if_neg hl]
      exact ih

/-- The bucket fold keeps every index already stored. -/
theorem bucket_fold_preserve {j : Nat} {lab : Int} (ps : List (Nat × Sample)) :
    ∀ d : List (Int × List Nat),
      j ∈ (dictLookup lab d).getD [] →
      j ∈ (dictLookup lab (ps.foldl (fun d p => bucketAdd p.2.label p.1 d) d)).getD [] := by
  induction ps with
  | nil => intro d h; exact h
  | cons p rest ih =>
    intro d h
    rw [List.foldl_cons]
    exact ih _ (mem_lookup_bucketAdd h)

/-- Completeness of the bucket fold: every enumerated pair ends up stored
under its own label. -/
theorem bucket_fold_complete (ps : List (Nat × Sample)) :
    ∀ d : List (Int × List Nat), ∀ p ∈ ps,
      p.1 ∈ (dictLookup p.2.label
        (ps.foldl (fun d p => bucketAdd p.2.label p.1 d) d)).getD [] := by
  induction ps with
  | nil => intro d p hp; cases hp
  | cons q rest ih =>
    intro d p hp
    rw [List.foldl_cons]
    rcases List.mem_cons.mp hp with hhead | htail
    · rw [hhead]
      exact bucket_fold_preserve rest _ (mem_lookup_bucketAdd_self q.2.label q.1 d)
    · exact ih _ p htail

/-- The bucket fold appends exactly the enumerated indices to the stored
multiset. -/
theorem bucket_fold_perm (ps : List (Nat × Sample)) :
    ∀ d : List (Int × List Nat),
      ((ps.foldl (fun d p => bucketAdd p.2.label p.1 d) d).map Prod.snd).flatten.Perm
        ((d.map Prod.snd).flatten ++ ps.map Prod.fst) := by
  induction ps with
  | nil => intro d; simp
  | cons p rest ih =>
    intro d
    rw [List.foldl_cons]
    refine ((ih _).trans ?_)
    refine ((bucketAdd_flatten_perm p.2.label p.1 d).append_right _).trans ?_
    exact List.perm_middle.symm

/-- The stored indices of the label buckets are a permutation of the full
global index range. -/
theorem buildLabelSeqi_perm (l : List Sample) :
    ((buildLabelSeqi l).map Prod.snd).flatten.Perm (List.range l.length) := by
  unfold buildLabelSeqi
  have h := bucket_fold_perm l.enum []
  simpa [List.enum_map_fst] using h

/-- Every stored index carries the label of its own sample. -/
theorem buildLabelSeqi_sound (l : List Sample) {lab : Int} {is : List Nat}
    (hmem : (lab, is) ∈ buildLabelSeqi l) :
    ∀ j ∈ is, ∃ h : j < l.length, (l.get ⟨j, h⟩).label = lab := by
  refine bucket_fold_sound
    (fun lab j => ∃ h : j < l.length, (l.get ⟨j, h⟩).label = lab) l.enum []
    (by intro lab' is' h; cases h) ?_ lab is hmem
  intro p hp
  obtain ⟨i, x⟩ := p
  rw [List.mk_mem_enum_iff_getElem?] at hp
  obtain ⟨h, hx⟩ := List.getElem?_eq_some.mp hp
  exact ⟨h, by simp [hx]⟩

/-- Every sample index is stored under the label of its sample. -/
theorem buildLabelSeqi_complete (l : List Sample) (i : Nat) (h : i < l.length) :
    ∃ is, dictLookup ((l.get ⟨i, h⟩).label) (buildLabelSeqi l) = some is ∧ i ∈ is := by
  have hp : (i, l.get ⟨i, h⟩) ∈ l.enum := by
    rw [List.mk_mem_enum_iff_getElem?]
    simp
  have hc := bucket_fold_complete l.enum [] (i, l.get ⟨i, h⟩) hp
  unfold buildLabelSeqi
  cases hlk : dictLookup ((l.get ⟨i, h⟩).label)
      (l.enum.foldl (fun d p => bucketAdd p.2.label p.1 d) []) with
  | none =>
    rw [hlk] at hc
    simp at hc
  | some is =>
    rw [hlk] at hc
    simp only [Option.getD_some] at hc
    exact ⟨is, rfl, hc⟩

/-- The keys after bucketAdd: unchanged for a known label, the new label
appended otherwise. -/
theorem bucketAdd_keys (lab : Int) (i : Nat) (d : List (Int × List Nat)) :
    (bucketAdd lab i d).map Prod.fst =
      if lab ∈ d.map Prod.fst then d.map Prod.fst else d.map Prod.fst ++ [lab] := by
  induction d with
  | nil => simp [bucketAdd]
  | cons p rest ih =>
    unfold bucketAdd
    by_cases hl : p.1 = lab
    · rw [if_pos hl]
      have : lab ∈ (p :: rest).map Prod.fst := by
        simp [hl.symm]
      rw [if_pos this]
      simp [hl]
    · rw [if_neg hl]
      simp only [List.map_cons]
      rw [ih]
      by_cases hm : lab ∈ rest.map Prod.fst
      · rw [if_pos hm, if_pos (by simp [hm])]
      · rw [if_neg hm, if_neg ?_]
        · simp
        · simp only [List.map_cons, List.mem_cons]
          push_neg
          exact ⟨fun he => hl he.symm, hm⟩

/-- The bucket fold keeps the label keys without duplicates. -/
theorem bucket_fold_keys_nodup (ps : List (Nat × Sample)) :
    ∀ d : List (Int × List Nat),
      (d.map Prod.fst).Nodup →
      ((ps.foldl (fun d p => bucketAdd p.2.label p.1 d) d).map Prod.fst).Nodup := by
  induction ps with
  | nil => intro d hd; exact hd
  | cons p rest ih =>
    intro d hd
    rw [List.foldl_cons]
    refine ih _ ?_
    rw [bucketAdd_keys]
    by_cases hm : p.2.label ∈ d.map Prod.fst
    · rw [if_pos hm]; exact hd
    · rw [if_neg hm]
      simp only [List.nodup_append, List.nodup_singleton, List.disjoint_singleton]
      exact ⟨hd, trivial, hm⟩

/-- The label keys of the bucket dict are distinct. -/
theorem buildLabelSeqi_keys_nodup (l : List Sample) :
    ((buildLabelSeqi l).map Prod.fst).Nodup :=
  bucket_fold_keys_nodup l.enum [] (by simp)

/-- bucketAdd keeps every bucket nonempty. -/
theorem bucketAdd_ne_nil {lab : Int} {i : Nat} {d : List (Int × List Nat)}
    (hd : ∀ p ∈ d, p.2 ≠ []) : ∀ p ∈ bucketAdd lab i d, p.2 ≠ [] := by
  induction d with
  | nil =>
    intro p hp
    simp only [bucketAdd, List.mem_singleton] at hp
    rw [hp]
    simp
  | cons q rest ih =>
    intro p hp
    unfold bucketAdd at hp
    by_cases hl : q.1 = lab
    · rw [if_pos hl] at hp
      rcases List.mem_cons.mp hp with hhead | htail
      · rw [hhead]
        simp
      · exact hd p (List.mem_cons_of_mem _ htail)
    · rw [if_neg hl] at hp
      rcases List.mem_cons.mp hp with hhead | htail
      · rw [hhead]
        exact hd q (List.mem_cons_self _ _)
      · exact ih (fun q' hq' => hd q' (List.mem_cons_of_mem _ hq')) p htail

/-- Every bucket built by the fold from an all nonempty dict is nonempty. -/
theorem bucket_fold_ne_nil (ps : List (Nat × Sample)) :
    ∀ d : List (Int × List Nat),
      (∀ p ∈ d, p.2 ≠ []) →
      ∀ p ∈ ps.foldl (fun d p => bucketAdd p.2.label p.1 d) d, p.2 ≠ [] := by
  induction ps with
  | nil => intro d hd; exact hd
  | cons q rest ih =>
    intro d hd
    rw [List.foldl_cons]
    exact ih _ (bucketAdd_ne_nil hd)

/-- Every label bucket is nonempty. -/
theorem buildLabelSeqi_ne_nil (l : List Sample) :
    ∀ p ∈ buildLabelSeqi l, p.2 ≠ [] :=
  bucket_fold_ne_nil l.enum [] (by intro p hp; cases hp)

/-- Soundness of the negative pool fold relative to its accumulator. -/
theorem negPool_go_sound (lab : Int) (d : List (Int × List Nat)) :
    ∀ (acc : List Nat) (j : Nat),
      j ∈ d.foldl (fun acc p => if p.1 = lab then acc else acc ++ p.2) acc →
      j ∈ acc ∨ ∃ p, p ∈ d ∧ p.1 ≠ lab ∧ j ∈ p.2 := by
  induction d with
  | nil => intro acc j h; exact Or.inl h
  | cons q rest ih =>
    intro acc j h
    rw [List.foldl_cons] at h
    by_cases hl : q.1 = lab
    · rw [if_pos hl] at h
      rcases ih acc j h with hacc | ⟨p, hp, hne, hj⟩
      · exact Or.inl hacc
      · exact Or.inr ⟨p, List.mem_cons_of_mem _ hp, hne, hj⟩
    · rw [if_neg hl] at h
      rcases ih (acc ++ q.2) j h with hacc | ⟨p, hp, hne, hj⟩
      · rcases List.mem_append.mp hacc with h1 | h2
        · exact Or.inl h1
        · exact Or.inr ⟨q, List.mem_cons_self _ _, hl, h2⟩
      · exact Or.inr ⟨p, List.mem_cons_of_mem _ hp, hne, hj⟩

/-- Every member of the negative pool lies in a bucket of another label. -/
theorem negPool_sound {lab : Int} {d : List (Int × List Nat)} {j : Nat}
    (h : j ∈ negPool lab d) : ∃ p, p ∈ d ∧ p.1 ≠ lab ∧ j ∈ p.2 := by
  rcases negPool_go_sound lab d [] j h with habs | hgood
  · cases habs
  · exact hgood

/-- When every bucket carries the anchor label the negative pool is empty. -/
theorem negPool_all_eq (lab : Int) (d : List (Int × List Nat))
    (h : ∀ p ∈ d, p.1 = lab) : negPool lab d = [] := by
  have hgo : ∀ acc : List Nat,
      d.foldl (fun acc p => if p.1 = lab then acc else acc ++ p.2) acc = acc := by
    induction d with
    | nil => intro acc; rfl
    | cons q rest ih =>
      intro acc
      rw [List.foldl_cons, if_pos (h q (List.mem_cons_self _ _))]
      exact ih (fun p hp => h p (List.mem_cons_of_mem _ hp)) acc
  exact hgo []

/-- sampleOne only fails with the empty population ValueError. -/
theorem sampleOne_err {α : Type} {l : List α} {g : Nat} {e : PyErr}
    (h : sampleOne l g = .error e) : e = .valueError sampleMsg := by
  unfold sampleOne at h
  split at h
  · cases h
  · cases h
    rfl

/-- pyGet only fails with the list range IndexError. -/
theorem pyGet_err {α : Type} {l : List α} {i : Int} {e : PyErr}
    (h : pyGet l i = .error e) : e = .indexError listMsg := by
  unfold pyGet at h
  dsimp only at h
  split at h <;> split at h <;> simp_all

/-- The three way case analysis of Python list indexing. -/
theorem pyGet_cases {α : Type} (l : List α) (i : Int) :
    (∀ h : 0 ≤ i ∧ i < l.length, pyGet l i = .ok (l.get ⟨i.toNat, by omega⟩))
    ∧ (∀ h : -(l.length : Int) ≤ i ∧ i < 0,
        pyGet l i = .ok (l.get ⟨(i + l.length).toNat, by omega⟩))
    ∧ ((i < -(l.length : Int) ∨ (l.length : Int) ≤ i) →
        pyGet l i = .error (.indexError listMsg)) := by
  refine ⟨?_, ?_, ?_⟩
  · intro h
    simp only [pyGet, if_neg (by omega : ¬ i < 0)]
    rw [dif_pos (by omega)]
  · intro h
    simp only [pyGet, if_pos h.2]
    rw [dif_pos (by omega)]
  · intro h
    by_cases hneg : i < 0
    · simp only [pyGet, if_pos hneg]
      rw [dif_neg (by omega)]
    · simp only [pyGet, if_neg hneg]
      rw [dif_neg (by omega)]

/-- PsanaImg.get is the image fetch over the timestamp lookup. -/
theorem PsanaImg_get_eq (env : PsanaEnv) (p : PsanaImg) (e : Int) :
    PsanaImg.get env p e =
      match pyGet p.timestamps e with
      | .ok t => .ok (env.imageOf p.detector (env.eventOf p.datasource_id t))
      | .error err => .error err := by
  unfold PsanaImg.get
  cases pyGet p.timestamps e <;> rfl

/-- PsanaImg.get only fails with the list range IndexError. -/
theorem PsanaImg_get_err {env : PsanaEnv} {p : PsanaImg} {ev : Int} {e : PyErr}
    (h : PsanaImg.get env p ev = .error e) : e = .indexError listMsg := by
  rw [PsanaImg_get_eq] at h
  cases hp : pyGet p.timestamps ev with
  | ok t => rw [hp] at h; cases h
  | error e' =>
    rw [hp] at h
    cases h
    exact pyGet_err hp

/-- SPIImg.__getitem__ only fails with a KeyError or the list range
IndexError, never the virtual size IndexError. -/
theorem SPIImg_getitem_err {env : PsanaEnv} {ds : SPIImg} {idx : Int} {e : PyErr}
    (h : SPIImg.getitem env ds idx = .error e) :
    e = .keyError ∨ e = .indexError listMsg := by
  unfold SPIImg.getitem SPIImg.getitemS at h
  split at h
  · rename_i e' heq
    simp only at h
    cases h
    exact Or.inr (pyGet_err heq)
  · dsimp only at h
    split at h
    · simp only at h
      cases h
      exact Or.inl rfl
    · split at h
      · rename_i e' heq
        simp only at h
        cases h
        exact Or.inr (PsanaImg_get_err heq)
      · cases h

/-- SPIImg.__getitem__ leaves the object state untouched on every path. -/
theorem SPIImg_getitemS_state (env : PsanaEnv) (ds : SPIImg) (idx : Int) :
    (SPIImg.getitemS env ds idx).2 = ds := by
  unfold SPIImg.getitemS
  split
  · rfl
  · dsimp only
    split
    · rfl
    · split <;> rfl

/-- The flat sample list of a constructed catalog is the enumeration of its
dataset dict. -/
theorem SPIImg_init_imglabel (env : PsanaEnv) (fs : String → Option (List (String × Int)))
    (u : String) (manifest : List RunDescriptor) :
    (SPIImg.init env fs u manifest).imglabel_list =
      buildImglabelList (SPIImg.init env fs u manifest).dataset_dict := rfl

/-- The catalog underlying a constructed triplet dataset. -/
theorem SPIImgDataset_init_base (env : PsanaEnv) (fs : String → Option (List (String × Int)))
    (u : String) (manifest : List RunDescriptor) (sz sd : Nat) :
    (SPIImgDataset.init env fs u manifest sz sd).toSPIImg = SPIImg.init env fs u manifest := rfl

/-- The label buckets of a constructed triplet dataset. -/
theorem SPIImgDataset_init_dict (env : PsanaEnv) (fs : String → Option (List (String × Int)))
    (u : String) (manifest : List RunDescriptor) (sz sd : Nat) :
    (SPIImgDataset.init env fs u manifest sz sd).label_seqi_dict =
      buildLabelSeqi (SPIImg.init env fs u manifest).imglabel_list := rfl

/-- The stock image count of a constructed triplet dataset. -/
theorem SPIImgDataset_init_num (env : PsanaEnv) (fs : String → Option (List (String × Int)))
    (u : String) (manifest : List RunDescriptor) (sz sd : Nat) :
    (SPIImgDataset.init env fs u manifest sz sd).num_stockimgs =
      (SPIImg.init env fs u manifest).imglabel_list.length := rfl

/-- A successful single sample read at a natural index returns the label of
the sample at that global index. -/
theorem SPIImg_getitem_ok_label {env : PsanaEnv} {ds : SPIImg} {n : Nat}
    {img : List Int} {lab : Int}
    (h : SPIImg.getitem env ds (n : Int) = .ok (img, lab)) :
    ∃ hn : n < ds.imglabel_list.length, (ds.imglabel_list.get ⟨n, hn⟩).label = lab := by
  unfold SPIImg.getitem SPIImg.getitemS at h
  rw [pyGet_natCast] at h
  by_cases hn : n < ds.imglabel_list.length
  · rw [dif_pos hn] at h
    refine ⟨hn, ?_⟩
    rcases hget : ds.imglabel_list.get ⟨n, hn⟩ with ⟨exp, run, ev, lab'⟩
    rw [hget] at h
    simp only at h
    split at h
    · simp at h
    · split at h
      · simp at h
      · simp only at h
        rw [Except.ok.injEq, Prod.mk.injEq] at h
        rw [Sample.label]
        exact h.2
  · rw [dif_neg hn] at h
    simp at h




/-! Claims. -/

/-- C1: for every manifest of runs with distinct basenames whose label files
together define N (event, label) pairs, the constructed catalog has length N,
the flat sample list carries global indices exactly 0..N-1 in order, the
(event_num, label) content is the concatenation of the per run parsed label
files in manifest order (each run sorted ascending by numeric event number),
and the concrete two run scenario yields exactly the four expected samples in
the expected order. -/
theorem c1_catalog_flat_indexing (env : PsanaEnv)
    (fs : String → Option (List (String × Int))) (u : String)
    (manifest : List RunDescriptor)
    (hnodup : (manifest.map RunDescriptor.basename).Nodup) :
    (SPIImg.init env fs u manifest).len =
      (manifest.map (fun rd => (loadImglabel fs u rd.exp rd.run rd.drc_root).length)).sum
    ∧ ((SPIImg.init env fs u manifest).imglabel_list.enum.map Prod.fst =
        List.range (SPIImg.init env fs u manifest).len)
    ∧ ((SPIImg.init env fs u manifest).imglabel_list.map (fun s => s.2.2) =
        (manifest.map (fun rd => (loadImglabel fs u rd.exp rd.run rd.drc_root).map
          (fun el => (strToInt el.1, el.2)))).flatten)
    ∧ exDs.imglabel_list =
        [("A", "1", (0 : Int), (1 : Int)), ("A", "1", 2, 1), ("A", "1", 5, 0),
         ("B", "2", 1, 0)] := by
  refine ⟨SPIImg_len_eq env fs u manifest hnodup, ?_, ?_, ?_⟩
  · rw [List.enum_map_fst]
    rfl
  · rw [SPIImg_init_imglabel, (SPIImg_init_dicts env fs u manifest hnodup).2,
      buildImglabelList_pairs, List.map_map]
    rfl
  · decide

/-- Witness for C1 at the concrete two run scenario. -/
theorem c1_catalog_flat_indexing_witness :
    ((exManifest.map RunDescriptor.basename).Nodup)
    ∧ (SPIImg.init exEnv exFs "u" exManifest).len =
        (exManifest.map
          (fun rd => (loadImglabel exFs "u" rd.exp rd.run rd.drc_root).length)).sum :=
  ⟨by decide, (c1_catalog_flat_indexing exEnv exFs "u" exManifest (by decide)).1⟩

/-- C2: for every constructed TripletSampler the label buckets are an exact
partition of the global index range: distinct label keys, the stored indices
are a permutation of 0..N-1 (so no index is missing or duplicated), every
stored index lies in the bucket of the label of its own sample, and every
index is found by looking up the label of its own sample. -/
theorem c2_buckets_partition (env : PsanaEnv)
    (fs : String → Option (List (String × Int))) (u : String)
    (manifest : List RunDescriptor) (sz sd : Nat) :
    (((SPIImgDataset.init env fs u manifest sz sd).label_seqi_dict.map Prod.fst).Nodup)
    ∧ (((SPIImgDataset.init env fs u manifest sz sd).label_seqi_dict.map
          Prod.snd).flatten.Perm
        (List.range (SPIImgDataset.init env fs u manifest sz sd).num_stockimgs))
    ∧ (∀ lab is,
        (lab, is) ∈ (SPIImgDataset.init env fs u manifest sz sd).label_seqi_dict →
        ∀ i ∈ is,
          ∃ h : i < (SPIImgDataset.init env fs u manifest sz sd).imglabel_list.length,
            ((SPIImgDataset.init env fs u manifest sz sd).imglabel_list.get
              ⟨i, h⟩).label = lab)
    ∧ (∀ (i : Nat)
        (h : i < (SPIImgDataset.init env fs u manifest sz sd).imglabel_list.length),
        ∃ is,
          dictLookup
            (((SPIImgDataset.init env fs u manifest sz sd).imglabel_list.get
              ⟨i, h⟩).label)
            (SPIImgDataset.init env fs u manifest sz sd).label_seqi_dict = some is
          ∧ i ∈ is) := by
  refine ⟨buildLabelSeqi_keys_nodup _, buildLabelSeqi_perm _, ?_, ?_⟩
  · intro lab is hmem i hi
    exact buildLabelSeqi_sound _ hmem i hi
  · intro i h
    exact buildLabelSeqi_complete _ i h

/-- Witness for C2 at the concrete scenario: index 0 is found in the bucket
of its own label. -/
theorem c2_buckets_partition_witness :
    0 < (SPIImgDataset.init exEnv exFs "u" exManifest 2 0).imglabel_list.length
    ∧ ∃ is,
        dictLookup
          (((SPIImgDataset.init exEnv exFs "u" exManifest 2 0).imglabel_list.get
            ⟨0, by decide⟩).label)
          (SPIImgDataset.init exEnv exFs "u" exManifest 2 0).label_seqi_dict = some is
        ∧ 0 ∈ is :=
  ⟨by decide,
   (c2_buckets_partition exEnv exFs "u" exManifest 2 0).2.2.2 0 (by decide)⟩

/-- C3: every produced triplet draws its positive from the full bucket of the
anchor label (a bucket that contains the anchor index itself, so positive may
equal anchor) and its negative from the concatenation of the other buckets;
the positive sample carries the anchor label, the negative sample carries a
different label, and the returned label is the label of the anchor sample. -/
theorem c3_triplet_label_correctness (env : PsanaEnv)
    (fs : String → Option (List (String × Int))) (u : String)
    (manifest : List RunDescriptor) (sz sd : Nat) (idx : Int) (g : Nat)
    (t : TripletDetail) (g' : Nat)
    (hok : SPIImgDataset.getitemDetail env
      (SPIImgDataset.init env fs u manifest sz sd) idx g = (.ok t, g')) :
    ∃ pos_bucket,
      dictLookup t.2.2.2 (SPIImgDataset.init env fs u manifest sz sd).label_seqi_dict
        = some pos_bucket
      ∧ t.1.1 ∈ pos_bucket
      ∧ t.2.1.1 ∈ pos_bucket
      ∧ t.2.2.1.1 ∈ negPool t.2.2.2
          (SPIImgDataset.init env fs u manifest sz sd).label_seqi_dict
      ∧ (∃ h : t.1.1 < (SPIImgDataset.init env fs u manifest sz sd).imglabel_list.length,
          ((SPIImgDataset.init env fs u manifest sz sd).imglabel_list.get
            ⟨t.1.1, h⟩).label = t.2.2.2)
      ∧ (∃ h : t.2.1.1 < (SPIImgDataset.init env fs u manifest sz sd).imglabel_list.length,
          ((SPIImgDataset.init env fs u manifest sz sd).imglabel_list.get
            ⟨t.2.1.1, h⟩).label = t.2.2.2)
      ∧ (∃ h : t.2.2.1.1 < (SPIImgDataset.init env fs u manifest sz sd).imglabel_list.length,
          ((SPIImgDataset.init env fs u manifest sz sd).imglabel_list.get
            ⟨t.2.2.1.1, h⟩).label ≠ t.2.2.2) := by
  unfold SPIImgDataset.getitemDetail at hok
  split at hok
  · simp at hok
  · dsimp only at hok
    split at hok
    · simp at hok
    · rename_i pA gA hA
      split at hok
      · simp at hok
      · rename_i imgA labA hB
        split at hok
        · simp at hok
        · rename_i pos_bucket hC
          split at hok
          · simp at hok
          · rename_i pP gP hD
            split at hok
            · simp at hok
            · rename_i pN gN hE
              split at hok
              · simp at hok
              · rename_i imgP labP hF
                split at hok
                · simp at hok
                · rename_i imgN labN hG
                  rw [Prod.mk.injEq, Except.ok.injEq] at hok
                  obtain ⟨ht, hg⟩ := hok
                  subst ht
                  dsimp only
                  refine ⟨pos_bucket, hC, ?_, sampleOne_mem hD, sampleOne_mem hE, ?_, ?_, ?_⟩
                  · obtain ⟨hn, hlab⟩ := SPIImg_getitem_ok_label hB
                    obtain ⟨is0, hlk0, hmem0⟩ := buildLabelSeqi_complete
                      (SPIImgDataset.init env fs u manifest sz sd).imglabel_list pA hn
                    rw [hlab] at hlk0
                    have hsame : is0 = pos_bucket :=
                      Option.some.inj (hlk0.symm.trans hC)
                    rw [← hsame]
                    exact hmem0
                  · exact SPIImg_getitem_ok_label hB
                  · have hmemP := sampleOne_mem hD
                    have hpair := dictLookup_mem hC
                    exact buildLabelSeqi_sound _ hpair pP hmemP
                  · have hmemN := sampleOne_mem hE
                    obtain ⟨p, hp, hne, hNin⟩ := negPool_sound hmemN
                    obtain ⟨hlt, hlabN⟩ := buildLabelSeqi_sound _
                      (by
                        have hpp : p = (p.1, p.2) := rfl
                        rw [hpp] at hp
                        exact hp) pN hNin
                    exact ⟨hlt, fun hc => hne (by rw [← hlabN]; exact hc)⟩

/-- Witness for C3: the triplet produced at request 0 of the concrete
scenario draws positive 0 and anchor 1 from the label 1 bucket and negative
3 from the pool of the other buckets. -/
theorem c3_triplet_label_correctness_witness :
    (SPIImgDataset.getitemDetail exEnv
        (SPIImgDataset.init exEnv exFs "u" exManifest 2 0) 0 0 =
      (.ok (((1 : Nat), [(102 : Int)]), ((0 : Nat), [(100 : Int)]),
            ((3 : Nat), [(101 : Int)]), (1 : Int)), 654583775))
    ∧ ∃ pos_bucket,
        dictLookup (1 : Int)
          (SPIImgDataset.init exEnv exFs "u" exManifest 2 0).label_seqi_dict
          = some pos_bucket
        ∧ 1 ∈ pos_bucket
        ∧ 0 ∈ pos_bucket
        ∧ 3 ∈ negPool (1 : Int)
            (SPIImgDataset.init exEnv exFs "u" exManifest 2 0).label_seqi_dict
        ∧ (∃ h : 1 < (SPIImgDataset.init exEnv exFs "u" exManifest 2 0).imglabel_list.length,
            ((SPIImgDataset.init exEnv exFs "u" exManifest 2 0).imglabel_list.get
              ⟨1, h⟩).label = 1)
        ∧ (∃ h : 0 < (SPIImgDataset.init exEnv exFs "u" exManifest 2 0).imglabel_list.length,
            ((SPIImgDataset.init exEnv exFs "u" exManifest 2 0).imglabel_list.get
              ⟨0, h⟩).label = 1)
        ∧ (∃ h : 3 < (SPIImgDataset.init exEnv exFs "u" exManifest 2 0).imglabel_list.length,
            ((SPIImgDataset.init exEnv exFs "u" exManifest 2 0).imglabel_list.get
              ⟨3, h⟩).label ≠ 1) :=
  ⟨by rfl,
   c3_triplet_label_correctness exEnv exFs "u" exManifest 2 0 0 0
     (((1 : Nat), [(102 : Int)]), ((0 : Nat), [(100 : Int)]),
      ((3 : Nat), [(101 : Int)]), (1 : Int)) 654583775 (by rfl)⟩

/-- C4: the sampler reseeds the random source with the fixed construction
seed on every call before drawing, so for a fixed dataset the entire call
result is independent of the incoming generator state and of the request
index: any two valid request indices, with any two incoming states, yield
the identical result including the identical drawn index triple. -/
theorem c4_reseed_determinism (env : PsanaEnv) (ds : SPIImgDataset)
    (idx1 idx2 : Int) (g1 g2 : Nat)
    (h1a : 0 ≤ idx1) (h1b : idx1 < (ds.size_sample : Int))
    (h2a : 0 ≤ idx2) (h2b : idx2 < (ds.size_sample : Int)) :
    SPIImgDataset.getitemDetail env ds idx1 g1 =
      SPIImgDataset.getitemDetail env ds idx2 g2 := by
  unfold SPIImgDataset.getitemDetail
  rw [if_neg (by omega), if_neg (by omega)]

/-- Witness for C4: requests 0 and 1 of the concrete scenario coincide under
different incoming generator states. -/
theorem c4_reseed_determinism_witness :
    ((0 : Int) ≤ 0 ∧ (0 : Int) < ((SPIImgDataset.init exEnv exFs "u" exManifest 2 0).size_sample : Int)
      ∧ (0 : Int) ≤ 1 ∧ (1 : Int) < ((SPIImgDataset.init exEnv exFs "u" exManifest 2 0).size_sample : Int))
    ∧ SPIImgDataset.getitemDetail exEnv (SPIImgDataset.init exEnv exFs "u" exManifest 2 0) 0 17 =
        SPIImgDataset.getitemDetail exEnv (SPIImgDataset.init exEnv exFs "u" exManifest 2 0) 1 93 :=
  ⟨by decide,
   c4_reseed_determinism exEnv (SPIImgDataset.init exEnv exFs "u" exManifest 2 0)
     0 1 17 93 (by decide) (by decide) (by decide) (by decide)⟩

/-- C5: for every label file that exists, the parsed index is sorted
ascending by the numeric value of the string event number key (and is a
permutation of the file entries), hence not by lexicographic string order. -/
theorem c5_numeric_key_sort (fs : String → Option (List (String × Int)))
    (u exp run root : String) (d : List (String × Int))
    (h : fs (locateLabelfile u exp run root) = some d) :
    (loadImglabel fs u exp run root).Pairwise
      (fun a b => strToInt a.1 ≤ strToInt b.1)
    ∧ (loadImglabel fs u exp run root).Perm d :=
  loadImglabel_spec fs u exp run root d h

/-- Witness for C5: a file whose keys are lexicographically decreasing, with
key 2 preceding key 10 in the parsed result. -/
theorem c5_numeric_key_sort_witness :
    ((fun p => if p = locateLabelfile "u" "A" "1" "root"
        then some [("10", (7 : Int)), ("2", 9)] else none)
      (locateLabelfile "u" "A" "1" "root") = some [("10", (7 : Int)), ("2", 9)])
    ∧ (loadImglabel
        (fun p => if p = locateLabelfile "u" "A" "1" "root"
          then some [("10", (7 : Int)), ("2", 9)] else none)
        "u" "A" "1" "root").Pairwise (fun a b => strToInt a.1 ≤ strToInt b.1)
    ∧ loadImglabel
        (fun p => if p = locateLabelfile "u" "A" "1" "root"
          then some [("10", (7 : Int)), ("2", 9)] else none)
        "u" "A" "1" "root" = [("2", 9), ("10", (7 : Int))] :=
  ⟨by simp,
   (c5_numeric_key_sort
     (fun p => if p = locateLabelfile "u" "A" "1" "root"
       then some [("10", (7 : Int)), ("2", 9)] else none)
     "u" "A" "1" "root" [("10", (7 : Int)), ("2", 9)] (by simp)).1,
   by decide⟩

/-- C6: a missing label file is recoverable: the parsed index is empty, and a
catalog over a manifest containing such a run is still constructed, with its
length the sum of the per run counts, the absent run contributing zero. -/
theorem c6_missing_labelfile_recoverable (env : PsanaEnv)
    (fs : String → Option (List (String × Int))) (u : String)
    (manifest : List RunDescriptor) (rd0 : RunDescriptor)
    (hmem : rd0 ∈ manifest)
    (hnodup : (manifest.map RunDescriptor.basename).Nodup)
    (habsent : fs (locateLabelfile u rd0.exp rd0.run rd0.drc_root) = none) :
    loadImglabel fs u rd0.exp rd0.run rd0.drc_root = []
    ∧ (SPIImg.init env fs u manifest).len =
        (manifest.map
          (fun rd => (loadImglabel fs u rd.exp rd.run rd.drc_root).length)).sum :=
  ⟨loadImglabel_absent fs u rd0.exp rd0.run rd0.drc_root habsent,
   SPIImg_len_eq env fs u manifest hnodup⟩

/-- File system for the C6 witness: run A has its label file, run B does not. -/
def exFsA : String → Option (List (String × Int)) := fun p =>
  if p = "root/A/u/psocake/r0001/A_0001.label.json" then
    some [("2", 1), ("0", 1), ("5", 0)]
  else none

/-- Witness for C6: with the label file of run B absent the catalog still has
the three samples of run A. -/
theorem c6_missing_labelfile_recoverable_witness :
    ({ exp := "B", run := "2", mode := "idx", detector_name := "d",
       drc_root := "root" } ∈ exManifest)
    ∧ loadImglabel exFsA "u" "B" "2" "root" = []
    ∧ (SPIImg.init exEnv exFsA "u" exManifest).len = 3 :=
  ⟨by decide,
   (c6_missing_labelfile_recoverable exEnv exFsA "u" exManifest
     { exp := "B", run := "2", mode := "idx", detector_name := "d", drc_root := "root" }
     (by decide) (by decide) (by rfl)).1,
   by decide⟩

/-- C7 counterexample: request index -1 lies outside [0, size_sample) yet the
call is accepted and produces a triplet, because the source only checks the
upper bound. -/
theorem c7_counterexample_negative_request :
    (SPIImgDataset.init exEnv exFs "u" exManifest 2 0).size_sample = 2
    ∧ ((-1 : Int) < 0)
    ∧ exOk (SPIImgDataset.getitemDetail exEnv
        (SPIImgDataset.init exEnv exFs "u" exManifest 2 0) (-1) 0).1 = true :=
  ⟨rfl, by decide, by rfl⟩

/-- C7 amended: length() returns size_sample, and the virtual size range
error is raised exactly for request_index at or above size_sample; every
request_index below size_sample, negative ones included, passes the range
check (its failure modes, if any, are other errors). -/
theorem c7_amended_virtual_length_range (env : PsanaEnv) (ds : SPIImgDataset)
    (idx : Int) (g : Nat) :
    SPIImgDataset.len ds = ds.size_sample
    ∧ ((ds.size_sample : Int) ≤ idx →
        SPIImgDataset.getitemDetail env ds idx g = (.error (.indexError sizeMsg), g))
    ∧ (idx < (ds.size_sample : Int) →
        (SPIImgDataset.getitemDetail env ds idx g).1 ≠ .error (.indexError sizeMsg)) := by
  refine ⟨rfl, ?_, ?_⟩
  · intro h
    unfold SPIImgDataset.getitemDetail
    rw [if_pos h]
  · intro h
    unfold SPIImgDataset.getitemDetail
    rw [if_neg (by omega)]
    dsimp only
    split
    · rename_i e heq
      rw [sampleOne_err heq]
      simp [sampleMsg, sizeMsg]
    · split
      · rename_i e heq
        rcases SPIImg_getitem_err heq with he | he <;> rw [he] <;>
          simp [listMsg, sizeMsg]
      · split
        · simp
        · split
          · rename_i e heq
            rw [sampleOne_err heq]
            simp [sampleMsg, sizeMsg]
          · split
            · rename_i e heq
              rw [sampleOne_err heq]
              simp [sampleMsg, sizeMsg]
            · split
              · rename_i e heq
                rcases SPIImg_getitem_err heq with he | he <;> rw [he] <;>
                  simp [listMsg, sizeMsg]
              · split
                · rename_i e heq
                  rcases SPIImg_getitem_err heq with he | he <;> rw [he] <;>
                    simp [listMsg, sizeMsg]
                · simp

/-- Witness for C7 amended: request 5 against virtual size 2 raises the size
range error, request 0 does not. -/
theorem c7_amended_virtual_length_range_witness :
    (((SPIImgDataset.init exEnv exFs "u" exManifest 2 0).size_sample : Int) ≤ 5
      ∧ (0 : Int) < ((SPIImgDataset.init exEnv exFs "u" exManifest 2 0).size_sample : Int))
    ∧ SPIImgDataset.getitemDetail exEnv
        (SPIImgDataset.init exEnv exFs "u" exManifest 2 0) 5 0 =
        (.error (.indexError sizeMsg), 0)
    ∧ (SPIImgDataset.getitemDetail exEnv
        (SPIImgDataset.init exEnv exFs "u" exManifest 2 0) 0 0).1 ≠
        .error (.indexError sizeMsg) :=
  ⟨by decide,
   (c7_amended_virtual_length_range exEnv
     (SPIImgDataset.init exEnv exFs "u" exManifest 2 0) 5 0).2.1 (by decide),
   (c7_amended_virtual_length_range exEnv
     (SPIImgDataset.init exEnv exFs "u" exManifest 2 0) 0 0).2.2 (by decide)⟩

/-- C8 counterexample: event number -1 lies outside [0, len(timestamps)) yet
the accessor returns the image at the last timestamp, because Python list
indexing wraps negative indices. -/
theorem c8_counterexample_negative_event :
    exPsana2.timestamps.length = 2
    ∧ ¬ (0 ≤ (-1 : Int))
    ∧ PsanaImg.get exEnv2 exPsana2 (-1) = .ok [[(101 : Int)]] :=
  ⟨rfl, by decide, by rfl⟩

/-- C8 amended: the accessor succeeds exactly for event numbers in
[-len, len); a nonnegative event number resolves through the timestamp at
that position, a negative one through position len + event_num, and anything
outside [-len, len) fails with the list range error. -/
theorem c8_amended_event_range (env : PsanaEnv) (p : PsanaImg) (e : Int) :
    (exOk (PsanaImg.get env p e) = true ↔
      (-(p.timestamps.length : Int) ≤ e ∧ e < p.timestamps.length))
    ∧ (0 ≤ e → e < (p.timestamps.length : Int) →
        PsanaImg.get env p e =
          .ok (env.imageOf p.detector (env.eventOf p.datasource_id
            (p.timestamps.getD e.toNat 0))))
    ∧ (-(p.timestamps.length : Int) ≤ e → e < 0 →
        PsanaImg.get env p e =
          .ok (env.imageOf p.detector (env.eventOf p.datasource_id
            (p.timestamps.getD (e + p.timestamps.length).toNat 0))))
    ∧ ((e < -(p.timestamps.length : Int) ∨ (p.timestamps.length : Int) ≤ e) →
        PsanaImg.get env p e = .error (.indexError listMsg)) := by
  obtain ⟨hin, hneg, hout⟩ := pyGet_cases p.timestamps e
  have h2 : 0 ≤ e → e < (p.timestamps.length : Int) →
      PsanaImg.get env p e =
        .ok (env.imageOf p.detector (env.eventOf p.datasource_id
          (p.timestamps.getD e.toNat 0))) := by
    intro ha hb
    rw [PsanaImg_get_eq, hin ⟨ha, hb⟩]
    have hg : p.timestamps.getD e.toNat 0 = p.timestamps.get ⟨e.toNat, by omega⟩ := by
      rw [List.getD_eq_getElem _ _ (by omega : e.toNat < p.timestamps.length)]
      rfl
    rw [hg]
  have h3 : -(p.timestamps.length : Int) ≤ e → e < 0 →
      PsanaImg.get env p e =
        .ok (env.imageOf p.detector (env.eventOf p.datasource_id
          (p.timestamps.getD (e + p.timestamps.length).toNat 0))) := by
    intro ha hb
    rw [PsanaImg_get_eq, hneg ⟨ha, hb⟩]
    have hg : p.timestamps.getD (e + p.timestamps.length).toNat 0 =
        p.timestamps.get ⟨(e + p.timestamps.length).toNat, by omega⟩ := by
      rw [List.getD_eq_getElem _ _
        (by omega : (e + p.timestamps.length).toNat < p.timestamps.length)]
      rfl
    rw [hg]
  have h4 : (e < -(p.timestamps.length : Int) ∨ (p.timestamps.length : Int) ≤ e) →
      PsanaImg.get env p e = .error (.indexError listMsg) := by
    intro hcase
    rw [PsanaImg_get_eq, hout hcase]
  refine ⟨⟨?_, ?_⟩, h2, h3, h4⟩
  · intro hok
    by_cases hr : -(p.timestamps.length : Int) ≤ e ∧ e < p.timestamps.length
    · exact hr
    · have : PsanaImg.get env p e = .error (.indexError listMsg) := h4 (by omega)
      rw [this] at hok
      cases hok
  · intro hr
    by_cases hpos : 0 ≤ e
    · rw [h2 hpos hr.2]
      rfl
    · rw [h3 hr.1 (by omega)]
      rfl

/-- Witness for C8 amended: event 1 of the two element accessor resolves to
the timestamp at position 1 and event -2 to position 0. -/
theorem c8_amended_event_range_witness :
    ((0 : Int) ≤ 1 ∧ (1 : Int) < (exPsana2.timestamps.length : Int)
      ∧ -(exPsana2.timestamps.length : Int) ≤ -2 ∧ (-2 : Int) < 0)
    ∧ PsanaImg.get exEnv2 exPsana2 1 =
        .ok (exEnv2.imageOf exPsana2.detector (exEnv2.eventOf exPsana2.datasource_id
          (exPsana2.timestamps.getD (1 : Int).toNat 0)))
    ∧ PsanaImg.get exEnv2 exPsana2 (-2) =
        .ok (exEnv2.imageOf exPsana2.detector (exEnv2.eventOf exPsana2.datasource_id
          (exPsana2.timestamps.getD ((-2 : Int) + exPsana2.timestamps.length).toNat 0))) :=
  ⟨by decide,
   (c8_amended_event_range exEnv2 exPsana2 1).2.1 (by decide) (by decide),
   (c8_amended_event_range exEnv2 exPsana2 (-2)).2.2.1 (by decide) (by decide)⟩

/-- C9: accessors are constructed exactly once per manifest run, during
catalog construction, stored keyed by basename in manifest order with the
open handle and timestamp list taken from the external source at that
moment; and every single sample read returns the object state unchanged, so
no get ever mutates the accessor mapping or any accessor. -/
theorem c9_accessor_construction_and_frame (env : PsanaEnv)
    (fs : String → Option (List (String × Int))) (u : String)
    (manifest : List RunDescriptor)
    (hnodup : (manifest.map RunDescriptor.basename).Nodup) :
    (SPIImg.init env fs u manifest).psana_imgreader_dict =
      manifest.map (fun rd =>
        (rd.basename, PsanaImg.init env rd.exp rd.run rd.mode rd.detector_name))
    ∧ (∀ idx : Int,
        (SPIImg.getitemS env (SPIImg.init env fs u manifest) idx).2 =
          SPIImg.init env fs u manifest) :=
  ⟨(SPIImg_init_dicts env fs u manifest hnodup).1,
   fun idx => SPIImg_getitemS_state env (SPIImg.init env fs u manifest) idx⟩

/-- Witness for C9 at the concrete scenario. -/
theorem c9_accessor_construction_and_frame_witness :
    ((exManifest.map RunDescriptor.basename).Nodup)
    ∧ (SPIImg.init exEnv exFs "u" exManifest).psana_imgreader_dict =
        exManifest.map (fun rd =>
          (rd.basename, PsanaImg.init exEnv rd.exp rd.run rd.mode rd.detector_name)) :=
  ⟨by decide,
   (c9_accessor_construction_and_frame exEnv exFs "u" exManifest (by decide)).1⟩

/-- C10: over a nonempty single label catalog whose image reads succeed, the
negative pool is empty and every in range request fails by sampling the
empty pool, a ValueError distinct from the range check IndexError; no
triplet can be produced. -/
theorem c10_single_label_no_triplet (env : PsanaEnv)
    (fs : String → Option (List (String × Int))) (u : String)
    (manifest : List RunDescriptor) (sz sd : Nat) (idx : Int) (g : Nat) (L : Int)
    (hall : ∀ s ∈ (SPIImg.init env fs u manifest).imglabel_list, s.label = L)
    (hne : (SPIImg.init env fs u manifest).imglabel_list ≠ [])
    (hfetch : ∀ i : Nat, i < (SPIImg.init env fs u manifest).imglabel_list.length →
        exOk (SPIImg.getitem env (SPIImg.init env fs u manifest) (i : Int)) = true)
    (h0 : 0 ≤ idx) (hs : idx < (sz : Int)) :
    (SPIImgDataset.getitemDetail env
      (SPIImgDataset.init env fs u manifest sz sd) idx g).1 =
      .error (.valueError sampleMsg) := by
  have hlen : 0 < (SPIImg.init env fs u manifest).imglabel_list.length :=
    List.length_pos.mpr hne
  have hrange :
      0 < (List.range (SPIImgDataset.init env fs u manifest sz sd).num_stockimgs).length := by
    rw [List.length_range]
    exact hlen
  unfold SPIImgDataset.getitemDetail
  rw [if_neg (show ¬ ((SPIImgDataset.init env fs u manifest sz sd).size_sample : Int) ≤ idx by
    have hsz : (SPIImgDataset.init env fs u manifest sz sd).size_sample = sz := rfl
    rw [hsz]
    omega)]
  dsimp only
  rw [sampleOne_pos _ _ hrange]
  set a0 : Nat := (List.range (SPIImgDataset.init env fs u manifest sz sd).num_stockimgs).get
    ⟨lcgNext (SPIImgDataset.init env fs u manifest sz sd).seed %
      (List.range (SPIImgDataset.init env fs u manifest sz sd).num_stockimgs).length,
     Nat.mod_lt _ hrange⟩ with ha0
  have ha0lt : a0 < (SPIImg.init env fs u manifest).imglabel_list.length := by
    have hm : a0 ∈ List.range (SPIImgDataset.init env fs u manifest sz sd).num_stockimgs := by
      rw [ha0]
      exact List.get_mem _ _ _
    exact List.mem_range.mp hm
  obtain ⟨v, hv⟩ := (exOk_iff _).mp (hfetch a0 ha0lt)
  obtain ⟨imgA, labA⟩ := v
  have hv2 : SPIImg.getitem env
      (SPIImgDataset.init env fs u manifest sz sd).toSPIImg (a0 : Int) = .ok (imgA, labA) := hv
  dsimp only
  rw [hv2]
  dsimp only
  obtain ⟨hn2, hlab2⟩ := SPIImg_getitem_ok_label hv
  have hlabL : labA = L := by
    rw [← hlab2]
    exact hall _ (List.get_mem _ _ _)
  obtain ⟨is0, hlk0, hmem0⟩ := buildLabelSeqi_complete
    (SPIImg.init env fs u manifest).imglabel_list a0 hn2
  rw [hlab2] at hlk0
  have hlkA : dictLookup labA
      (SPIImgDataset.init env fs u manifest sz sd).label_seqi_dict = some is0 := hlk0
  rw [hlkA]
  dsimp only
  rw [sampleOne_pos is0 _ (List.length_pos.mpr (fun hnil => by
    rw [hnil] at hmem0
    cases hmem0))]
  dsimp only
  have hpool : negPool labA
      (SPIImgDataset.init env fs u manifest sz sd).label_seqi_dict = [] := by
    apply negPool_all_eq
    intro p hp
    have hnonempty := buildLabelSeqi_ne_nil (SPIImg.init env fs u manifest).imglabel_list p hp
    obtain ⟨j, hj⟩ := List.exists_mem_of_ne_nil p.2 hnonempty
    have hps : p = (p.1, p.2) := rfl
    obtain ⟨hjlt, hjlab⟩ := buildLabelSeqi_sound _ (hps ▸ hp) j hj
    rw [← hjlab]
    have hgl := hall ((SPIImg.init env fs u manifest).imglabel_list.get ⟨j, hjlt⟩)
      (List.get_mem _ _ _)
    rw [hgl, hlabL]
  rw [hpool, sampleOne_nil]

/-- Single run manifest for the C10 witness. -/
def exManifest1 : List RunDescriptor :=
  [ { exp := "A", run := "1", mode := "idx", detector_name := "d", drc_root := "root" } ]

/-- File system for the C10 witness: both events carry label 1. -/
def exFs1 : String → Option (List (String × Int)) := fun p =>
  if p = "root/A/u/psocake/r0001/A_0001.label.json" then
    some [("0", 1), ("2", 1)]
  else none

/-- Witness for C10: a two sample catalog whose only label is 1 fails with
the empty pool ValueError on request 0. -/
theorem c10_single_label_no_triplet_witness :
    ((∀ s ∈ (SPIImg.init exEnv exFs1 "u" exManifest1).imglabel_list, s.label = 1)
      ∧ (SPIImg.init exEnv exFs1 "u" exManifest1).imglabel_list ≠ []
      ∧ (∀ i : Nat, i < (SPIImg.init exEnv exFs1 "u" exManifest1).imglabel_list.length →
          exOk (SPIImg.getitem exEnv (SPIImg.init exEnv exFs1 "u" exManifest1)
            (i : Int)) = true))
    ∧ (SPIImgDataset.getitemDetail exEnv
        (SPIImgDataset.init exEnv exFs1 "u" exManifest1 5 0) 0 0).1 =
        .error (.valueError sampleMsg) :=
  ⟨⟨by decide, by decide, by decide⟩,
   c10_single_label_no_triplet exEnv exFs1 "u" exManifest1 5 0 0 0 1
     (by decide) (by decide) (by decide) (by decide) (by decide)⟩
